import Mathlib

/-!
Shallow embedding of the TLV encode/decode engine of the relay_code
repository (src/main.rs and src/serde.rs).

Byte buffers are modelled as List Nat (each wire byte is < 256); a Rust
String is modelled by the list of its UTF-8 bytes.  Fallible operations
return a result type with one extra outcome, Res.crash, which marks the
places where the Rust source performs an unchecked slice or index and
would panic at runtime; Res.outOfFuel is a model artifact of the fuel
bounding the recursion of nested composite decoding and is never reached
with the fuel budget supplied by the top-level wrappers.

The modules actions, error and session of the repository are not under
src/; the definitions marked as modelled from the spec reconstruct them
from the specification text.
-/

namespace Relay

/-- Modelled from the spec: the error taxonomy of the missing error
module, restricted to the kinds the source code under src/ can actually
produce (the spec also lists TruncatedPayload and LengthOverflow, but no
code path in src/ returns them). -/
inductive Error where
  | MissingFieldType
  | MissingFieldLen
  | InvalidFieldType
  | EncodingError
deriving DecidableEq

/-- Result of running a decoding step: a value, a returned error, or a
Rust panic (unchecked slice or index out of bounds). -/
inductive Res (α : Type) where
  | ok : α → Res α
  | err : Error → Res α
  | crash : Res α
  | outOfFuel : Res α
deriving DecidableEq

def Res.bind {α β : Type} : Res α → (α → Res β) → Res β
  | .ok a, f => f a
  | .err e, _ => .err e
  | .crash, _ => .crash
  | .outOfFuel, _ => .outOfFuel

def Res.ofExcept {α : Type} : Except Error α → Res α
  | .ok a => .ok a
  | .error e => .err e

/-- FieldType enum of src/serde.rs with its repr(u8) discriminants
(Str = 1 through Session = 8). -/
inductive FieldType where
  | Str
  | U128
  | Byte
  | Bool
  | Action
  | ActionKind
  | Entity
  | Session
deriving DecidableEq

/-- Modelled from the spec: ActionKind (module actions is not under
src/) is a closed enumeration whose variants carry stable 1-byte
discriminants; since the decoder reinterprets the raw payload byte, the
embedding represents a value by the discriminant byte it carries. -/
structure ActionKind where
  disc : Nat
deriving DecidableEq

/-- Modelled from the spec: Action (module actions is not under src/) is
an action record; the spec fixes no field list beyond its kind, so the
embedding gives it the minimal declared field sequence of one ActionKind
field. -/
structure Action where
  kind : ActionKind
deriving DecidableEq

/-- Entity of src/main.rs: name, plus two placeholder scalar fields. -/
structure Entity where
  name : List Nat
  field_b : Nat
  field_c : Bool
deriving DecidableEq

/-- Modelled from the spec: Session (module session is not under src/)
wraps exactly one Entity. -/
structure Session where
  entity : Entity
deriving DecidableEq

/-- Field enum of src/serde.rs. -/
inductive Field where
  | Str : List Nat → Field
  | Byte : Nat → Field
  | Bool : Bool → Field
  | U128 : Nat → Field
  | Action : Action → Field
  | ActionKind : ActionKind → Field
  | Entity : Entity → Field
  | Session : Session → Field
deriving DecidableEq

/-- The Field variant a value carries, named by its wire tag. -/
def Field.tagOf : Field → FieldType
  | .Str _ => .Str
  | .Byte _ => .Byte
  | .Bool _ => .Bool
  | .U128 _ => .U128
  | .Action _ => .Action
  | .ActionKind _ => .ActionKind
  | .Entity _ => .Entity
  | .Session _ => .Session

/-! ### Typed conversion layer: the impl_try_from instantiations of
src/serde.rs (u128, u8, bool, String, Action, ActionKind, Entity; the
source instantiates no conversion for Session). -/

def tryFromU128 : Field → Except Error Nat
  | .U128 v => .ok v
  | _ => .error .InvalidFieldType

def tryFromU8 : Field → Except Error Nat
  | .Byte v => .ok v
  | _ => .error .InvalidFieldType

def tryFromBool : Field → Except Error Bool
  | .Bool v => .ok v
  | _ => .error .InvalidFieldType

def tryFromString : Field → Except Error (List Nat)
  | .Str v => .ok v
  | _ => .error .InvalidFieldType

def tryFromAction : Field → Except Error Action
  | .Action v => .ok v
  | _ => .error .InvalidFieldType

def tryFromActionKind : Field → Except Error ActionKind
  | .ActionKind v => .ok v
  | _ => .error .InvalidFieldType

def tryFromEntity : Field → Except Error Entity
  | .Entity v => .ok v
  | _ => .error .InvalidFieldType

/-! ### UTF-8 validity, the check performed by str::from_utf8 in the
Str arm of read_field. -/

def isUtf8Cont (b : Nat) : Bool :=
  0x80 ≤ b && b ≤ 0xBF

def isValidUtf8 : List Nat → Bool
  | [] => true
  | b :: rest =>
    if b ≤ 0x7F then isValidUtf8 rest
    else if 0xC2 ≤ b && b ≤ 0xDF then
      match rest with
      | c1 :: r => isUtf8Cont c1 && isValidUtf8 r
      | _ => false
    else if b = 0xE0 then
      match rest with
      | c1 :: c2 :: r => (0xA0 ≤ c1 && c1 ≤ 0xBF) && isUtf8Cont c2 && isValidUtf8 r
      | _ => false
    else if b = 0xED then
      match rest with
      | c1 :: c2 :: r => (0x80 ≤ c1 && c1 ≤ 0x9F) && isUtf8Cont c2 && isValidUtf8 r
      | _ => false
    else if 0xE1 ≤ b && b ≤ 0xEF then
      match rest with
      | c1 :: c2 :: r => isUtf8Cont c1 && isUtf8Cont c2 && isValidUtf8 r
      | _ => false
    else if b = 0xF0 then
      match rest with
      | c1 :: c2 :: c3 :: r =>
        (0x90 ≤ c1 && c1 ≤ 0xBF) && isUtf8Cont c2 && isUtf8Cont c3 && isValidUtf8 r
      | _ => false
    else if 0xF1 ≤ b && b ≤ 0xF3 then
      match rest with
      | c1 :: c2 :: c3 :: r =>
        isUtf8Cont c1 && isUtf8Cont c2 && isUtf8Cont c3 && isValidUtf8 r
      | _ => false
    else if b = 0xF4 then
      match rest with
      | c1 :: c2 :: c3 :: r =>
        (0x80 ≤ c1 && c1 ≤ 0x8F) && isUtf8Cont c2 && isUtf8Cont c3 && isValidUtf8 r
      | _ => false
    else false

/-! ### Encoder (serialize and write_len of src/serde.rs). -/

/-- write_len of src/serde.rs: the usize length is cast to u16 (a
truncating cast, len as u16) and appended big-endian. -/
def write_len (buf : List Nat) (len : Nat) : List Nat :=
  buf ++ [(len % 65536) / 256, len % 256]

/-- One wire record as all arms of serialize build it: push the tag
byte, write the (possibly truncated) payload length, append the
payload. -/
def write_record (buf : List Nat) (tag : Nat) (payload : List Nat) : List Nat :=
  write_len (buf ++ [tag]) payload.length ++ payload

/-- Big-endian byte string of a value on a given number of bytes
(u128::to_be_bytes for 16). -/
def beBytes : Nat → Nat → List Nat
  | 0, _ => []
  | k + 1, v => beBytes k (v / 256) ++ [v % 256]

/-- Entity::serialize of src/main.rs: Str name, then Byte field_b, then
Bool field_c, appended into one buffer. -/
def Entity.serialize (e : Entity) : List Nat :=
  write_record (write_record (write_record [] 1 e.name) 3 [e.field_b]) 4
    (if e.field_c then [1] else [0])

/-- Modelled from the spec: Action::serialize (module actions is not
under src/) encodes the declared field sequence of the Action record,
here its single ActionKind field. -/
def Action.serialize (a : Action) : List Nat :=
  write_record [] 6 [a.kind.disc]

/-- Modelled from the spec: Session::serialize (module session is not
under src/) encodes its single Entity field. -/
def Session.serialize (s : Session) : List Nat :=
  write_record [] 7 s.entity.serialize

/-- serialize of src/serde.rs: append the wire record of one Field. -/
def serialize (buf : List Nat) : Field → List Nat
  | .Str s => write_record buf 1 s
  | .U128 v => write_record buf 2 (beBytes 16 v)
  | .Byte b => write_record buf 3 [b]
  | .Bool b => write_record buf 4 (if b then [1] else [0])
  | .Action a => write_record buf 5 a.serialize
  | .ActionKind k => write_record buf 6 [k.disc]
  | .Entity e => write_record buf 7 e.serialize
  | .Session s => write_record buf 8 s.serialize

/-! ### Cursor reader (FieldReader of src/serde.rs).  The reader state
is the remaining-bytes list; each step returns the value read together
with the advanced remainder. -/

/-- FieldReader::field_type: consume the tag byte and map it through
the closed tag set; empty buffer gives MissingFieldType, an unknown tag
byte gives InvalidFieldType. -/
def FieldReader.field_type : List Nat → Res (FieldType × List Nat)
  | [] => .err .MissingFieldType
  | b :: rest =>
    match b with
    | 1 => .ok (.Str, rest)
    | 2 => .ok (.U128, rest)
    | 3 => .ok (.Byte, rest)
    | 4 => .ok (.Bool, rest)
    | 5 => .ok (.Action, rest)
    | 6 => .ok (.ActionKind, rest)
    | 7 => .ok (.Entity, rest)
    | 8 => .ok (.Session, rest)
    | _ => .err .InvalidFieldType

/-- FieldReader::len: consume the 2-byte big-endian length prefix;
fewer than 2 remaining bytes gives MissingFieldLen. -/
def FieldReader.len : List Nat → Res (Nat × List Nat)
  | b1 :: b2 :: rest => .ok (b1 * 256 + b2, rest)
  | _ => .err .MissingFieldLen

/-- FieldReader::read_be_u128: split_at(16) and parse big-endian; the
panic of split_at on a short payload is modelled at the call site. -/
def FieldReader.read_be_u128 (input : List Nat) : Nat :=
  (input.take 16).foldl (fun acc b => acc * 256 + b) 0

/-- Steps 1 to 3 of FieldReader::read_field: tag byte, length prefix,
then the unchecked payload slice.  The source slices with
buffer[..len], which panics when fewer than len bytes remain; that
panic is Res.crash here. -/
def FieldReader.read_raw (buf : List Nat) : Res (FieldType × List Nat × List Nat) :=
  (FieldReader.field_type buf).bind fun tr =>
    (FieldReader.len tr.2).bind fun lr =>
      if lr.1 ≤ lr.2.length then .ok (tr.1, lr.2.take lr.1, lr.2.drop lr.1)
      else .crash

/-- Read one field with an explicit payload parser and typed
conversion: the body of FieldReader::read_field after its header steps,
with the try_into of the requested type at the end. -/
def readFieldWith {α : Type} (parse : FieldType → List Nat → Res Field)
    (conv : Field → Except Error α) (buf : List Nat) : Res (α × List Nat) :=
  (FieldReader.read_raw buf).bind fun r =>
    (parse r.1 r.2.1).bind fun f =>
      (Res.ofExcept (conv f)).bind fun a => .ok (a, r.2.2)

/-- Entity::deserialize of src/main.rs, parameterized by the payload
parser of the recursive read_field it invokes: read name as String,
field_b as u8, field_c as bool, in declared order. -/
def deserializeEntityWith (parse : FieldType → List Nat → Res Field)
    (buf : List Nat) : Res (Entity × List Nat) :=
  (readFieldWith parse tryFromString buf).bind fun nr =>
    (readFieldWith parse tryFromU8 nr.2).bind fun br =>
      (readFieldWith parse tryFromBool br.2).bind fun cr =>
        .ok ({ name := nr.1, field_b := br.1, field_c := cr.1 }, cr.2)

/-- Modelled from the spec: Action::deserialize (module actions is not
under src/) reads the declared field sequence of Action, here one
ActionKind field. -/
def deserializeActionWith (parse : FieldType → List Nat → Res Field)
    (buf : List Nat) : Res (Action × List Nat) :=
  (readFieldWith parse tryFromActionKind buf).bind fun kr =>
    .ok ({ kind := kr.1 }, kr.2)

/-- Modelled from the spec: Session::deserialize (module session is not
under src/) reads its single Entity field. -/
def deserializeSessionWith (parse : FieldType → List Nat → Res Field)
    (buf : List Nat) : Res (Session × List Nat) :=
  (readFieldWith parse tryFromEntity buf).bind fun er =>
    .ok ({ entity := er.1 }, er.2)

/-- Step 4 of FieldReader::read_field: interpret the payload slice
according to the tag, producing a generic Field value.  Res.crash marks
the unchecked indexing of the source: bytes[0] in the Bool, Byte and
ActionKind arms and split_at(16) in the U128 arm.  The ActionKind arm
reinterprets the raw byte with no validity check (the transmute of the
source).  The fuel only bounds the recursion into nested composites and
is never exhausted with the budget of the top-level wrappers. -/
def parseFieldF : Nat → FieldType → List Nat → Res Field
  | _, .Str, p => if isValidUtf8 p then .ok (.Str p) else .err .EncodingError
  | _, .U128, p =>
    if p.length < 16 then .crash else .ok (.U128 (FieldReader.read_be_u128 p))
  | _, .Byte, p =>
    match p with
    | [] => .crash
    | b :: _ => .ok (.Byte b)
  | _, .Bool, p =>
    match p with
    | [] => .crash
    | b :: _ => .ok (.Bool (b == 1))
  | _, .ActionKind, p =>
    match p with
    | [] => .crash
    | b :: _ => .ok (.ActionKind ⟨b⟩)
  | 0, .Action, _ => .outOfFuel
  | fuel + 1, .Action, p =>
    (deserializeActionWith (fun ft q => parseFieldF fuel ft q) p).bind fun ar =>
      .ok (.Action ar.1)
  | 0, .Entity, _ => .outOfFuel
  | fuel + 1, .Entity, p =>
    (deserializeEntityWith (fun ft q => parseFieldF fuel ft q) p).bind fun er =>
      .ok (.Entity er.1)
  | 0, .Session, _ => .outOfFuel
  | fuel + 1, .Session, p =>
    (deserializeSessionWith (fun ft q => parseFieldF fuel ft q) p).bind fun sr =>
      .ok (.Session sr.1)

/-- FieldReader::read_field for a requested concrete type given by its
conversion function.  One fuel unit is spent per nesting level of
composite payloads and each level strictly shrinks the buffer, so the
budget below can never run out. -/
def FieldReader.read_field {α : Type} (conv : Field → Except Error α)
    (buf : List Nat) : Res (α × List Nat) :=
  readFieldWith (parseFieldF (buf.length + 1)) conv buf

/-- Entity::deserialize applied to a whole buffer. -/
def Entity.deserialize (buf : List Nat) : Res (Entity × List Nat) :=
  deserializeEntityWith (parseFieldF (buf.length + 1)) buf

/-- Modelled from the spec: Action::deserialize applied to a whole
buffer. -/
def Action.deserialize (buf : List Nat) : Res (Action × List Nat) :=
  deserializeActionWith (parseFieldF (buf.length + 1)) buf

/-- Modelled from the spec: Session::deserialize applied to a whole
buffer. -/
def Session.deserialize (buf : List Nat) : Res (Session × List Nat) :=
  deserializeSessionWith (parseFieldF (buf.length + 1)) buf

/-! ### Helper lemmas about the embedding. -/

@[simp] theorem Res.bind_ok {α β : Type} (a : α) (f : α → Res β) :
    (Res.ok a).bind f = f a := rfl

@[simp] theorem Res.bind_err {α β : Type} (e : Error) (f : α → Res β) :
    (Res.err e).bind f = .err e := rfl

@[simp] theorem Res.bind_crash {α β : Type} (f : α → Res β) :
    (Res.crash : Res α).bind f = .crash := rfl

@[simp] theorem Res.bind_outOfFuel {α β : Type} (f : α → Res β) :
    (Res.outOfFuel : Res α).bind f = .outOfFuel := rfl

@[simp] theorem Res.ofExcept_ok {α : Type} (a : α) :
    Res.ofExcept (Except.ok a : Except Error α) = .ok a := rfl

@[simp] theorem Res.ofExcept_error {α : Type} (e : Error) :
    Res.ofExcept (Except.error e : Except Error α) = .err e := rfl

/-- Shape of one encoded wire record followed by trailing bytes, when
the payload is short enough for its length prefix not to wrap. -/
theorem write_record_shape (t : Nat) (p r : List Nat) (hlen : p.length ≤ 65535) :
    write_record [] t p ++ r = t :: p.length / 256 :: p.length % 256 :: (p ++ r) := by
  have h : p.length % 65536 = p.length := Nat.mod_eq_of_lt (by omega)
  simp [write_record, write_len, h]

/-- Reading the header of a well-formed encoded record recovers its
tag, its exact payload slice and the trailing bytes. -/
theorem read_raw_write_record (t : Nat) (ft : FieldType) (p r : List Nat)
    (htag : ∀ rest : List Nat, FieldReader.field_type (t :: rest) = .ok (ft, rest))
    (hlen : p.length ≤ 65535) :
    FieldReader.read_raw (write_record [] t p ++ r) = .ok (ft, p, r) := by
  rw [write_record_shape t p r hlen, FieldReader.read_raw, htag]
  have hdm : p.length / 256 * 256 + p.length % 256 = p.length := by
    have := Nat.div_add_mod p.length 256
    omega
  simp only [Res.bind_ok, FieldReader.len, hdm]
  rw [if_pos (by simp)]
  rw [List.take_left' rfl, List.drop_left' rfl]

/-- Reading one field from a well-formed record whose payload parses
and whose typed conversion accepts the parsed value. -/
theorem readFieldWith_record {α : Type} (parse : FieldType → List Nat → Res Field)
    (conv : Field → Except Error α) (t : Nat) (ft : FieldType) (p r : List Nat)
    (f : Field) (a : α)
    (htag : ∀ rest : List Nat, FieldReader.field_type (t :: rest) = .ok (ft, rest))
    (hlen : p.length ≤ 65535)
    (hp : parse ft p = .ok f) (hc : conv f = Except.ok a) :
    readFieldWith parse conv (write_record [] t p ++ r) = .ok (a, r) := by
  rw [readFieldWith, read_raw_write_record t ft p r htag hlen]
  simp [hp, hc]

/-- Reading one field from a well-formed record whose payload parses
but whose typed conversion rejects the parsed value. -/
theorem readFieldWith_record_err {α : Type} (parse : FieldType → List Nat → Res Field)
    (conv : Field → Except Error α) (t : Nat) (ft : FieldType) (p r : List Nat)
    (f : Field) (e : Error)
    (htag : ∀ rest : List Nat, FieldReader.field_type (t :: rest) = .ok (ft, rest))
    (hlen : p.length ≤ 65535)
    (hp : parse ft p = .ok f) (hc : conv f = Except.error e) :
    readFieldWith parse conv (write_record [] t p ++ r) = .err e := by
  rw [readFieldWith, read_raw_write_record t ft p r htag hlen]
  simp [hp, hc]

/-! ### Claim theorems. -/

/-- C1: for every valid in-memory Entity, with a name that is valid
UTF-8 of at most 65535 bytes, decoding the bytes produced by encoding
it yields exactly the same Entity (with the whole buffer consumed). -/
theorem c1_entity_roundtrip (v : Entity) (hutf : isValidUtf8 v.name = true)
    (hlen : v.name.length ≤ 65535) :
    Entity.deserialize (Entity.serialize v) = .ok (v, []) := by
  obtain ⟨name, fb, fc⟩ := v
  replace hutf : isValidUtf8 name = true := hutf
  replace hlen : name.length ≤ 65535 := hlen
  cases fc with
  | true =>
    have hser : Entity.serialize ⟨name, fb, true⟩
        = write_record [] 1 name
          ++ (write_record [] 3 [fb] ++ (write_record [] 4 [1] ++ [])) := by
      simp [Entity.serialize, write_record, write_len, List.append_assoc]
    rw [Entity.deserialize, hser, deserializeEntityWith]
    rw [readFieldWith_record _ tryFromString 1 .Str name _ (.Str name) name
      (fun _ => rfl) hlen (by simp [parseFieldF, hutf]) rfl]
    dsimp only [Res.bind_ok]
    rw [readFieldWith_record _ tryFromU8 3 .Byte [fb] _ (.Byte fb) fb
      (fun _ => rfl) (by simp) (by simp [parseFieldF]) rfl]
    dsimp only [Res.bind_ok]
    rw [readFieldWith_record _ tryFromBool 4 .Bool [1] [] (.Bool true) true
      (fun _ => rfl) (by simp) (by simp [parseFieldF]) rfl]
    rfl
  | false =>
    have hser : Entity.serialize ⟨name, fb, false⟩
        = write_record [] 1 name
          ++ (write_record [] 3 [fb] ++ (write_record [] 4 [0] ++ [])) := by
      simp [Entity.serialize, write_record, write_len, List.append_assoc]
    rw [Entity.deserialize, hser, deserializeEntityWith]
    rw [readFieldWith_record _ tryFromString 1 .Str name _ (.Str name) name
      (fun _ => rfl) hlen (by simp [parseFieldF, hutf]) rfl]
    dsimp only [Res.bind_ok]
    rw [readFieldWith_record _ tryFromU8 3 .Byte [fb] _ (.Byte fb) fb
      (fun _ => rfl) (by simp) (by simp [parseFieldF]) rfl]
    dsimp only [Res.bind_ok]
    rw [readFieldWith_record _ tryFromBool 4 .Bool [0] [] (.Bool false) false
      (fun _ => rfl) (by simp) (by simp [parseFieldF]) rfl]
    rfl

/-- Witness for C1 at a concrete Entity. -/
theorem c1_entity_roundtrip_witness :
    Entity.deserialize (Entity.serialize ⟨[104, 105], 7, true⟩)
      = .ok (⟨[104, 105], 7, true⟩, []) :=
  c1_entity_roundtrip ⟨[104, 105], 7, true⟩ (by decide) (by decide)

/-- C2: the claim requires a defined truncation error when fewer than
the declared length bytes remain; the source instead slices
buffer[..len] unchecked, so on the buffer 1, 0, 5 (tag Str, declared
length 5, no payload bytes) read_field and Entity decode both panic
(Res.crash) rather than returning an error. -/
theorem c2_truncation_crash :
    FieldReader.read_field tryFromString [1, 0, 5] = .crash ∧
    Entity.deserialize [1, 0, 5] = .crash := by
  decide

/-- C3: the claim requires a LengthOverflow error for payloads of
65536 bytes or more; write_len instead casts the length to u16, so a
65536-byte string encodes with a silently wrapped length prefix of 0
and no error is ever raised (serialize is infallible in the source). -/
theorem c3_silent_length_truncation :
    serialize [] (.Str (List.replicate 65536 97))
      = 1 :: 0 :: 0 :: List.replicate 65536 97 := by
  show write_record [] 1 (List.replicate 65536 97)
      = 1 :: 0 :: 0 :: List.replicate 65536 97
  rw [write_record, write_len, List.length_replicate]
  rfl

/-- C4: the claim requires InvalidFieldType for an ActionKind payload
byte outside the closed discriminant set; the source transmutes the
raw byte unchecked, so every payload byte (255 included) decodes
successfully to an ActionKind carrying that byte and no byte is ever
rejected. -/
theorem c4_actionkind_unchecked (b : Nat) :
    FieldReader.read_field tryFromActionKind [6, 0, 1, b] = .ok (⟨b⟩, []) := by
  rw [FieldReader.read_field, readFieldWith, FieldReader.read_raw]
  simp [FieldReader.field_type, FieldReader.len, parseFieldF, tryFromActionKind]

/-- C5: the typed conversion layer accepts exactly one Field variant
per concrete type, and read_field on a record whose present tag parses
to a variant other than the one the requested type expects returns
InvalidFieldType, for every requested type. -/
theorem c5_tag_mismatch :
    (∀ f : Field,
      ((∃ v, tryFromString f = .ok v) ↔ f.tagOf = .Str) ∧
      ((∃ v, tryFromU128 f = .ok v) ↔ f.tagOf = .U128) ∧
      ((∃ v, tryFromU8 f = .ok v) ↔ f.tagOf = .Byte) ∧
      ((∃ v, tryFromBool f = .ok v) ↔ f.tagOf = .Bool) ∧
      ((∃ v, tryFromAction f = .ok v) ↔ f.tagOf = .Action) ∧
      ((∃ v, tryFromActionKind f = .ok v) ↔ f.tagOf = .ActionKind) ∧
      ((∃ v, tryFromEntity f = .ok v) ↔ f.tagOf = .Entity)) ∧
    (∀ (buf : List Nat) (ft : FieldType) (p r : List Nat) (f : Field),
      FieldReader.read_raw buf = .ok (ft, p, r) →
      parseFieldF (buf.length + 1) ft p = .ok f →
      (f.tagOf ≠ .Str →
        FieldReader.read_field tryFromString buf = .err .InvalidFieldType) ∧
      (f.tagOf ≠ .U128 →
        FieldReader.read_field tryFromU128 buf = .err .InvalidFieldType) ∧
      (f.tagOf ≠ .Byte →
        FieldReader.read_field tryFromU8 buf = .err .InvalidFieldType) ∧
      (f.tagOf ≠ .Bool →
        FieldReader.read_field tryFromBool buf = .err .InvalidFieldType) ∧
      (f.tagOf ≠ .Action →
        FieldReader.read_field tryFromAction buf = .err .InvalidFieldType) ∧
      (f.tagOf ≠ .ActionKind →
        FieldReader.read_field tryFromActionKind buf = .err .InvalidFieldType) ∧
      (f.tagOf ≠ .Entity →
        FieldReader.read_field tryFromEntity buf = .err .InvalidFieldType)) := by
  constructor
  · intro f
    cases f <;>
      simp [tryFromString, tryFromU128, tryFromU8, tryFromBool, tryFromAction,
        tryFromActionKind, tryFromEntity, Field.tagOf]
  · intro buf ft p r f h1 h2
    refine ⟨?_, ?_, ?_, ?_, ?_, ?_, ?_⟩ <;>
      · intro hne
        rw [FieldReader.read_field, readFieldWith, h1]
        dsimp only [Res.bind_ok]
        rw [h2]
        dsimp only [Res.bind_ok]
        cases f <;>
          simp_all [tryFromString, tryFromU128, tryFromU8, tryFromBool,
            tryFromAction, tryFromActionKind, tryFromEntity, Field.tagOf]

/-- Witness for C5: a Byte record read as a String. -/
theorem c5_tag_mismatch_witness :
    FieldReader.read_field tryFromString [3, 0, 1, 7] = .err .InvalidFieldType :=
  (c5_tag_mismatch.2 [3, 0, 1, 7] .Byte [7] [] (.Byte 7)
    (by decide) (by decide)).1 (by decide)

/-- C6: a buffer holding the three individually well-formed field
records of an Entity in any order other than the declared one (string
name, then byte, then bool) fails to decode with InvalidFieldType, for
all five wrong orders. -/
theorem c6_order_sensitivity (name : List Nat) (fb cb : Nat)
    (hutf : isValidUtf8 name = true) (hlen : name.length ≤ 65535) :
    Entity.deserialize
        (write_record [] 1 name ++ (write_record [] 4 [cb] ++ write_record [] 3 [fb]))
      = .err .InvalidFieldType ∧
    Entity.deserialize
        (write_record [] 3 [fb] ++ (write_record [] 1 name ++ write_record [] 4 [cb]))
      = .err .InvalidFieldType ∧
    Entity.deserialize
        (write_record [] 3 [fb] ++ (write_record [] 4 [cb] ++ write_record [] 1 name))
      = .err .InvalidFieldType ∧
    Entity.deserialize
        (write_record [] 4 [cb] ++ (write_record [] 1 name ++ write_record [] 3 [fb]))
      = .err .InvalidFieldType ∧
    Entity.deserialize
        (write_record [] 4 [cb] ++ (write_record [] 3 [fb] ++ write_record [] 1 name))
      = .err .InvalidFieldType := by
  refine ⟨?_, ?_, ?_, ?_, ?_⟩
  · rw [Entity.deserialize, deserializeEntityWith]
    rw [readFieldWith_record _ tryFromString 1 .Str name _ (.Str name) name
      (fun _ => rfl) hlen (by simp [parseFieldF, hutf]) rfl]
    dsimp only [Res.bind_ok]
    rw [readFieldWith_record_err _ tryFromU8 4 .Bool [cb] _ (.Bool (cb == 1))
      .InvalidFieldType (fun _ => rfl) (by simp) (by simp [parseFieldF]) rfl]
    rfl
  · rw [Entity.deserialize, deserializeEntityWith]
    rw [readFieldWith_record_err _ tryFromString 3 .Byte [fb] _ (.Byte fb)
      .InvalidFieldType (fun _ => rfl) (by simp) (by simp [parseFieldF]) rfl]
    rfl
  · rw [Entity.deserialize, deserializeEntityWith]
    rw [readFieldWith_record_err _ tryFromString 3 .Byte [fb] _ (.Byte fb)
      .InvalidFieldType (fun _ => rfl) (by simp) (by simp [parseFieldF]) rfl]
    rfl
  · rw [Entity.deserialize, deserializeEntityWith]
    rw [readFieldWith_record_err _ tryFromString 4 .Bool [cb] _ (.Bool (cb == 1))
      .InvalidFieldType (fun _ => rfl) (by simp) (by simp [parseFieldF]) rfl]
    rfl
  · rw [Entity.deserialize, deserializeEntityWith]
    rw [readFieldWith_record_err _ tryFromString 4 .Bool [cb] _ (.Bool (cb == 1))
      .InvalidFieldType (fun _ => rfl) (by simp) (by simp [parseFieldF]) rfl]
    rfl

/-- Witness for C6: byte record, then string record, then bool record. -/
theorem c6_order_sensitivity_witness :
    Entity.deserialize
        (write_record [] 3 [7] ++ (write_record [] 1 [97] ++ write_record [] 4 [1]))
      = .err .InvalidFieldType :=
  (c6_order_sensitivity [97] 7 1 (by decide) (by decide)).2.1

/-- C7: the claim requires a truncation or format error whenever a
U128 payload length differs from 16; the source instead panics
(split_at(16), modelled as Res.crash) on a shorter payload and
silently parses the first 16 bytes of a longer one with no error. -/
theorem c7_u128_unchecked :
    FieldReader.read_field tryFromU128 [2, 0, 0] = .crash ∧
    FieldReader.read_field tryFromU128 (write_record [] 2 (List.replicate 17 0))
      = .ok (0, []) := by
  decide

/-- C8: the claim requires an error on an empty Byte or Bool payload;
the source instead indexes bytes[0] unchecked and panics (Res.crash);
a non-empty payload does use the first payload byte as the value. -/
theorem c8_empty_payload_crash :
    FieldReader.read_field tryFromU8 [3, 0, 0] = .crash ∧
    FieldReader.read_field tryFromBool [4, 0, 0] = .crash ∧
    FieldReader.read_field tryFromU8 [3, 0, 1, 9] = .ok (9, []) := by
  decide

/-- C9: read_field on an empty buffer returns MissingFieldType; after
a valid tag byte, fewer than 2 remaining bytes return MissingFieldLen;
otherwise the length is the 2-byte big-endian value after the tag. -/
theorem c9_header_errors :
    (∀ (α : Type) (conv : Field → Except Error α),
      FieldReader.read_field conv [] = .err .MissingFieldType) ∧
    (∀ (α : Type) (conv : Field → Except Error α) (t : Nat) (ft : FieldType)
      (rest : List Nat),
      FieldReader.field_type (t :: rest) = .ok (ft, rest) → rest.length < 2 →
      FieldReader.read_field conv (t :: rest) = .err .MissingFieldLen) ∧
    (∀ (b1 b2 : Nat) (rest : List Nat),
      FieldReader.len (b1 :: b2 :: rest) = .ok (b1 * 256 + b2, rest)) := by
  refine ⟨fun α conv => rfl, ?_, fun b1 b2 rest => rfl⟩
  intro α conv t ft rest htag hlt
  rw [FieldReader.read_field, readFieldWith, FieldReader.read_raw, htag]
  dsimp only [Res.bind_ok]
  cases rest with
  | nil => simp [FieldReader.len]
  | cons a tl =>
    cases tl with
    | nil => simp [FieldReader.len]
    | cons b tl2 => simp at hlt; omega

/-- Witness for C9: a valid tag byte followed by an empty buffer. -/
theorem c9_header_errors_witness :
    FieldReader.read_field tryFromU8 [7] = .err .MissingFieldLen :=
  c9_header_errors.2.1 Nat tryFromU8 7 .Entity [] (by decide) (by decide)

/-- C10: a Bool record with payload byte b decodes to true exactly
when b equals 1; every other byte decodes successfully to false with
no error for the non-canonical encoding. -/
theorem c10_bool_noncanonical (b : Nat) (hb : b < 256) :
    FieldReader.read_field tryFromBool [4, 0, 1, b] = .ok (b == 1, []) ∧
    (b ≠ 1 → FieldReader.read_field tryFromBool [4, 0, 1, b] = .ok (false, [])) := by
  have h : FieldReader.read_field tryFromBool [4, 0, 1, b] = .ok (b == 1, []) := by
    rw [FieldReader.read_field, readFieldWith, FieldReader.read_raw]
    simp [FieldReader.field_type, FieldReader.len, parseFieldF, tryFromBool]
  refine ⟨h, fun hne => ?_⟩
  rw [h]
  cases hbe : b == 1 with
  | true => exact absurd (eq_of_beq hbe) hne
  | false => rfl

/-- Witness for C10: payload byte 2 decodes to false. -/
theorem c10_bool_noncanonical_witness :
    FieldReader.read_field tryFromBool [4, 0, 1, 2] = .ok (false, []) :=
  (c10_bool_noncanonical 2 (by decide)).2 (by decide)

end Relay
